import Mathlib

/-
  Verification of the MealMind router agent
  (meal_mind_streamlit/utils/meal_router_agent.py).

  The Python state machine is shallowly embedded: the `ChatRouterState`
  TypedDict becomes a Lean structure, each node method becomes a total Lean
  function, and every external collaborator call (the hosted chat model, the
  MCP retrieval client) is passed in as an explicit argument carrying the
  outcome of that call, with Python exceptions modelled by `Except String`.
  JSON values produced by Python `json.loads` are modelled by the `Json`
  inductive below together with an executable parser for the JSON grammar
  (numbers are kept as raw lexemes since no routing decision inspects their
  numeric value; `\uXXXX` escapes are decoded to the code point without
  combining surrogate pairs).
-/

set_option maxHeartbeats 1000000

namespace MealMind

/-- The brace characters, named so they can be used uniformly in the
    regex model and in the JSON parser. -/
def lbrace : Char := Char.ofNat 123

def rbrace : Char := Char.ofNat 125

/-- A single-quote character (used verbatim inside Python message strings). -/
def sq : String := String.singleton (Char.ofNat 39)

/-- JSON values as produced by `json.loads`.  Object fields keep their
    textual order (with duplicates); lookup takes the last binding, matching
    Python dict construction order semantics. -/
inductive Json where
  | null : Json
  | bool : Bool → Json
  | num : String → Json
  | str : String → Json
  | arr : List Json → Json
  | obj : List (String × Json) → Json
deriving Repr

mutual

def jsonDecEq : (a b : Json) → Decidable (a = b)
  | Json.null, Json.null => isTrue rfl
  | Json.null, Json.bool _ => isFalse (fun h => nomatch h)
  | Json.null, Json.num _ => isFalse (fun h => nomatch h)
  | Json.null, Json.str _ => isFalse (fun h => nomatch h)
  | Json.null, Json.arr _ => isFalse (fun h => nomatch h)
  | Json.null, Json.obj _ => isFalse (fun h => nomatch h)
  | Json.bool _, Json.null => isFalse (fun h => nomatch h)
  | Json.bool a, Json.bool b =>
    match decEq a b with
    | isTrue h => isTrue (by rw [h])
    | isFalse h => isFalse (by intro hh; injection hh; contradiction)
  | Json.bool _, Json.num _ => isFalse (fun h => nomatch h)
  | Json.bool _, Json.str _ => isFalse (fun h => nomatch h)
  | Json.bool _, Json.arr _ => isFalse (fun h => nomatch h)
  | Json.bool _, Json.obj _ => isFalse (fun h => nomatch h)
  | Json.num _, Json.null => isFalse (fun h => nomatch h)
  | Json.num _, Json.bool _ => isFalse (fun h => nomatch h)
  | Json.num a, Json.num b =>
    match decEq a b with
    | isTrue h => isTrue (by rw [h])
    | isFalse h => isFalse (by intro hh; injection hh; contradiction)
  | Json.num _, Json.str _ => isFalse (fun h => nomatch h)
  | Json.num _, Json.arr _ => isFalse (fun h => nomatch h)
  | Json.num _, Json.obj _ => isFalse (fun h => nomatch h)
  | Json.str _, Json.null => isFalse (fun h => nomatch h)
  | Json.str _, Json.bool _ => isFalse (fun h => nomatch h)
  | Json.str _, Json.num _ => isFalse (fun h => nomatch h)
  | Json.str a, Json.str b =>
    match decEq a b with
    | isTrue h => isTrue (by rw [h])
    | isFalse h => isFalse (by intro hh; injection hh; contradiction)
  | Json.str _, Json.arr _ => isFalse (fun h => nomatch h)
  | Json.str _, Json.obj _ => isFalse (fun h => nomatch h)
  | Json.arr _, Json.null => isFalse (fun h => nomatch h)
  | Json.arr _, Json.bool _ => isFalse (fun h => nomatch h)
  | Json.arr _, Json.num _ => isFalse (fun h => nomatch h)
  | Json.arr _, Json.str _ => isFalse (fun h => nomatch h)
  | Json.arr xs, Json.arr ys =>
    match jsonListDecEq xs ys with
    | isTrue h => isTrue (by rw [h])
    | isFalse h => isFalse (by intro hh; injection hh; contradiction)
  | Json.arr _, Json.obj _ => isFalse (fun h => nomatch h)
  | Json.obj _, Json.null => isFalse (fun h => nomatch h)
  | Json.obj _, Json.bool _ => isFalse (fun h => nomatch h)
  | Json.obj _, Json.num _ => isFalse (fun h => nomatch h)
  | Json.obj _, Json.str _ => isFalse (fun h => nomatch h)
  | Json.obj _, Json.arr _ => isFalse (fun h => nomatch h)
  | Json.obj xs, Json.obj ys =>
    match jsonKVDecEq xs ys with
    | isTrue h => isTrue (by rw [h])
    | isFalse h => isFalse (by intro hh; injection hh; contradiction)

def jsonListDecEq : (a b : List Json) → Decidable (a = b)
  | [], [] => isTrue rfl
  | [], _ :: _ => isFalse (fun h => nomatch h)
  | _ :: _, [] => isFalse (fun h => nomatch h)
  | x :: xs, y :: ys =>
    match jsonDecEq x y with
    | isTrue h1 =>
      match jsonListDecEq xs ys with
      | isTrue h2 => isTrue (by rw [h1, h2])
      | isFalse h2 => isFalse (by intro hh; injection hh; contradiction)
    | isFalse h1 => isFalse (by intro hh; injection hh; contradiction)

def jsonKVDecEq : (a b : List (String × Json)) → Decidable (a = b)
  | [], [] => isTrue rfl
  | [], _ :: _ => isFalse (fun h => nomatch h)
  | _ :: _, [] => isFalse (fun h => nomatch h)
  | (k1, v1) :: xs, (k2, v2) :: ys =>
    match decEq k1 k2 with
    | isTrue hk =>
      match jsonDecEq v1 v2 with
      | isTrue hv =>
        match jsonKVDecEq xs ys with
        | isTrue ht => isTrue (by rw [hk, hv, ht])
        | isFalse ht => isFalse (by intro hh; injection hh; contradiction)
      | isFalse hv =>
        isFalse (by
          intro hh
          injection hh with hp ht
          exact hv (congrArg Prod.snd hp))
    | isFalse hk =>
      isFalse (by
        intro hh
        injection hh with hp ht
        exact hk (congrArg Prod.fst hp))

end

instance : DecidableEq Json := jsonDecEq

/-- Python `dict` lookup on a parsed object: the last binding of a duplicated
    key wins, as in `json.loads`. -/
def jlookup (kvs : List (String × Json)) (k : String) : Option Json :=
  (kvs.reverse.find? (fun p => p.1 = k)).map (fun p => p.2)

/-- Python `d.get(k)` on a JSON value: `none` when the value is not an object
    or the key is absent. -/
def jget (j : Json) (k : String) : Option Json :=
  match j with
  | Json.obj kvs => jlookup kvs k
  | _ => none

/-- Python `d[k]` on a JSON value: raises `KeyError` on a missing key and
    `TypeError`/`AttributeError` on a non-dict receiver. -/
def jindexE (j : Json) (k : String) : Except String Json :=
  match j with
  | Json.obj kvs =>
    match jlookup kvs k with
    | some v => Except.ok v
    | none => Except.error ("KeyError: " ++ k)
  | _ => Except.error "TypeError: value is not a dict"

def Json.isObj : Json → Bool
  | Json.obj _ => true
  | _ => false

/-- JSON whitespace (also what `str.strip()` removes for the inputs in scope). -/
def isWsChar (c : Char) : Bool :=
  c = ' ' || c = Char.ofNat 9 || c = Char.ofNat 10 || c = Char.ofNat 13

def skipWs (l : List Char) : List Char := l.dropWhile isWsChar

def hexVal (c : Char) : Option Nat :=
  if '0' ≤ c ∧ c ≤ '9' then some (c.toNat - 48)
  else if 'a' ≤ c ∧ c ≤ 'f' then some (c.toNat - 87)
  else if 'A' ≤ c ∧ c ≤ 'F' then some (c.toNat - 55)
  else none

/-- Body of a JSON string literal, after the opening quote (fuel-indexed so
    the kernel can evaluate it; the fuel is always at least the input
    length).  Mirrors the strict mode of `json.loads`: raw control
    characters and unknown escapes are rejected. -/
def strBodyGo : Nat → List Char → List Char → Option (String × List Char)
  | 0, _, _ => none
  | Nat.succ _, [], _ => none
  | Nat.succ fuel, c :: rest, acc =>
    if c = '"' then some (String.mk acc.reverse, rest)
    else if c = '\\' then
      match rest with
      | [] => none
      | e :: rest2 =>
        if e = '"' then strBodyGo fuel rest2 ('"' :: acc)
        else if e = '\\' then strBodyGo fuel rest2 ('\\' :: acc)
        else if e = '/' then strBodyGo fuel rest2 ('/' :: acc)
        else if e = 'b' then strBodyGo fuel rest2 (Char.ofNat 8 :: acc)
        else if e = 'f' then strBodyGo fuel rest2 (Char.ofNat 12 :: acc)
        else if e = 'n' then strBodyGo fuel rest2 (Char.ofNat 10 :: acc)
        else if e = 'r' then strBodyGo fuel rest2 (Char.ofNat 13 :: acc)
        else if e = 't' then strBodyGo fuel rest2 (Char.ofNat 9 :: acc)
        else if e = 'u' then
          match rest2 with
          | a :: b :: c2 :: d :: rest3 =>
            match hexVal a, hexVal b, hexVal c2, hexVal d with
            | some x, some y, some z, some w =>
              strBodyGo fuel rest3 (Char.ofNat (((x * 16 + y) * 16 + z) * 16 + w) :: acc)
            | _, _, _, _ => none
          | _ => none
        else none
    else if c.toNat < 32 then none
    else strBodyGo fuel rest (c :: acc)

def strBody (l acc : List Char) : Option (String × List Char) :=
  strBodyGo (l.length + 1) l acc

/-- Exponent part of a JSON number lexeme (optional). -/
def expPart (acc l : List Char) : Option (String × List Char) :=
  match l with
  | e :: r =>
    if e = 'e' ∨ e = 'E' then
      let (s, r1) := match r with
        | c :: r2 => if c = '+' ∨ c = '-' then ([c], r2) else (([] : List Char), r)
        | [] => ([], r)
      let ds := r1.takeWhile Char.isDigit
      if ds.isEmpty then none
      else some (String.mk (acc ++ [e] ++ s ++ ds), r1.dropWhile Char.isDigit)
    else some (String.mk acc, l)
  | [] => some (String.mk acc, l)

/-- Fraction-then-exponent part of a JSON number lexeme. -/
def fracExp (acc l : List Char) : Option (String × List Char) :=
  match l with
  | c :: r =>
    if c = '.' then
      let ds := r.takeWhile Char.isDigit
      if ds.isEmpty then none
      else expPart (acc ++ [c] ++ ds) (r.dropWhile Char.isDigit)
    else expPart acc l
  | [] => expPart acc l

/-- A JSON number lexeme (strict grammar: no leading zeros, no bare sign). -/
def parseNum (l : List Char) : Option (String × List Char) :=
  let (sgn, l1) := match l with
    | c :: r => if c = '-' then ([c], r) else (([] : List Char), l)
    | [] => ([], l)
  match l1 with
  | c :: r =>
    if c = '0' then
      match r with
      | d :: _ => if d.isDigit then none else fracExp (sgn ++ [c]) r
      | [] => fracExp (sgn ++ [c]) []
    else if c.isDigit then
      fracExp (sgn ++ l1.takeWhile Char.isDigit) (l1.dropWhile Char.isDigit)
    else none
  | [] => none

mutual

/-- One JSON value, fuel-indexed (the fuel only bounds nesting depth). -/
def parseValue : Nat → List Char → Option (Json × List Char)
  | 0, _ => none
  | Nat.succ fuel, l =>
    let l1 := skipWs l
    match l1 with
    | [] => none
    | c :: r =>
      if c = 'n' then
        if r.take 3 = ['u', 'l', 'l'] then some (Json.null, r.drop 3) else none
      else if c = 't' then
        if r.take 3 = ['r', 'u', 'e'] then some (Json.bool true, r.drop 3) else none
      else if c = 'f' then
        if r.take 4 = ['a', 'l', 's', 'e'] then some (Json.bool false, r.drop 4) else none
      else if c = 'N' then
        if r.take 2 = ['a', 'N'] then some (Json.num "NaN", r.drop 2) else none
      else if c = 'I' then
        if r.take 7 = ['n', 'f', 'i', 'n', 'i', 't', 'y'] then
          some (Json.num "Infinity", r.drop 7)
        else none
      else if c = '-' ∧ r.take 8 = ['I', 'n', 'f', 'i', 'n', 'i', 't', 'y'] then
        some (Json.num "-Infinity", r.drop 8)
      else if c = '"' then
        match strBody r [] with
        | some (s, r2) => some (Json.str s, r2)
        | none => none
      else if c = lbrace then parseObj fuel r
      else if c = '[' then parseArr fuel r
      else
        match parseNum l1 with
        | some (s, r2) => some (Json.num s, r2)
        | none => none

/-- A JSON array after the opening bracket. -/
def parseArr : Nat → List Char → Option (Json × List Char)
  | 0, _ => none
  | Nat.succ fuel, l =>
    let l1 := skipWs l
    match l1 with
    | c :: r => if c = ']' then some (Json.arr [], r) else parseArrLoop fuel l1 []
    | [] => none

def parseArrLoop : Nat → List Char → List Json → Option (Json × List Char)
  | 0, _, _ => none
  | Nat.succ fuel, l, acc =>
    match parseValue fuel l with
    | none => none
    | some (v, r) =>
      match skipWs r with
      | c :: r2 =>
        if c = ',' then parseArrLoop fuel r2 (v :: acc)
        else if c = ']' then some (Json.arr (v :: acc).reverse, r2)
        else none
      | [] => none

/-- A JSON object after the opening brace. -/
def parseObj : Nat → List Char → Option (Json × List Char)
  | 0, _ => none
  | Nat.succ fuel, l =>
    let l1 := skipWs l
    match l1 with
    | c :: r => if c = rbrace then some (Json.obj [], r) else parseObjLoop fuel l1 []
    | [] => none

def parseObjLoop : Nat → List Char → List (String × Json) → Option (Json × List Char)
  | 0, _, _ => none
  | Nat.succ fuel, l, acc =>
    match skipWs l with
    | c :: r =>
      if c = '"' then
        match strBody r [] with
        | none => none
        | some (k, r2) =>
          match skipWs r2 with
          | c2 :: r3 =>
            if c2 = ':' then
              match parseValue fuel r3 with
              | none => none
              | some (v, r4) =>
                match skipWs r4 with
                | c3 :: r5 =>
                  if c3 = ',' then parseObjLoop fuel r5 ((k, v) :: acc)
                  else if c3 = rbrace then some (Json.obj ((k, v) :: acc).reverse, r5)
                  else none
                | [] => none
            else none
          | [] => none
      else none
    | [] => none

end

/-- `json.loads`: parse a complete document, rejecting trailing garbage.
    The fuel is generous: nesting consumes at least one character per three
    fuel steps. -/
def Json.parse (s : String) : Option Json :=
  match parseValue (4 * s.length + 16) s.toList with
  | some (j, rest) => if (skipWs rest).isEmpty then some j else none
  | none => none

-- ==================== TOOL-CALL EXTRACTION (regex model) ====================

/-- A character other than a brace (the regex character class `[^{}]`). -/
def braceFree (c : Char) : Bool := !(c = lbrace || c = rbrace)

/-- Model of `re.finditer` for the pattern `\x7b[^{}]*\x7d` used by
    `node_estimate_calories` and `node_general_chat`: scan left to right;
    the second argument is `some acc` while inside a potential match whose
    body so far is `acc` (reversed).  An inner opening brace restarts the
    match at that brace, exactly as the leftmost-match regex engine does. -/
def scan2 : List Char → Option (List Char) → List (List Char)
  | [], _ => []
  | c :: rest, none =>
    if c = lbrace then scan2 rest (some []) else scan2 rest none
  | c :: rest, some acc =>
    if c = rbrace then (lbrace :: acc.reverse ++ [rbrace]) :: scan2 rest none
    else if c = lbrace then scan2 rest (some [])
    else scan2 rest (some (c :: acc))

/-- The candidate substrings produced by the finditer scan, in order. -/
def candidates (content : String) : List String :=
  (scan2 content.toList none).map String.mk

/-- Positional specification of one regex match: position `i` starts a match
    iff the character there is an opening brace and the next brace strictly
    after it is a closing brace; the match spans up to that closing brace. -/
def matchAt (s : List Char) (i : Nat) : Option (List Char) :=
  match s.drop i with
  | [] => none
  | c :: rest =>
    if c = lbrace then
      match rest.dropWhile braceFree with
      | c2 :: _ =>
        if c2 = rbrace then some (lbrace :: rest.takeWhile braceFree ++ [rbrace])
        else none
      | [] => none
    else none

/-- One candidate handled as in the Python loop body: `json.loads`, then keep
    the object iff `.get("tool") == "search_foods"`; any parse failure is
    swallowed by the inner `except`. -/
def parseSearchCall (c : String) : Option Json :=
  match Json.parse c with
  | some j =>
    if jget j "tool" = some (Json.str "search_foods") then some j else none
  | none => none

/-- The `found_tools` accumulation loop over the finditer matches (shared
    verbatim between `node_estimate_calories` and `node_general_chat`). -/
def foundToolsGo : List String → List Json
  | [] => []
  | c :: cs =>
    match Json.parse c with
    | some j =>
      if jget j "tool" = some (Json.str "search_foods") then j :: foundToolsGo cs
      else foundToolsGo cs
    | none => foundToolsGo cs

/-- Tool calls extracted from a completion text. -/
def foundTools (content : String) : List Json :=
  foundToolsGo (candidates content)

-- ==================== LANGGRAPH STATE ====================

/-- A langchain message (only the fields the router logic observes). -/
structure Msg where
  role : String
  content : String
deriving DecidableEq, Repr

/-- One entry of `tool_outputs`: the dicts built by `node_execute_tools`
    always carry exactly the keys `tool`, `query`, `result`. -/
structure ToolOut where
  tool : String
  query : String
  result : String
deriving DecidableEq, Repr

/-- The `ChatRouterState` TypedDict.  `plan` and `tool_calls` hold parsed
    JSON values (the Python code stores `json.loads` results there);
    `current_step_index` starts at 0 and is only ever incremented. -/
structure ChatRouterState where
  user_input : String
  user_id : String
  user_profile : List (String × String)
  inventory_summary : String
  meal_plan_summary : String
  chat_history : List Msg
  plan : List Json
  current_step_index : Nat
  retrieved_data : Option String
  adjustment_result : Option Json
  estimation_result : Option Json
  recipe_result : Option String
  final_messages : List Msg
  monitoring_warnings : List String
  response : String
  tool_calls : List Json
  tool_outputs : List ToolOut
  active_node : String
deriving DecidableEq, Repr

/-- The initial state built by `run_chat_stream` for a fresh turn. -/
def initialState (ui : String) : ChatRouterState :=
  { user_input := ui
    user_id := "u1"
    user_profile := []
    inventory_summary := ""
    meal_plan_summary := ""
    chat_history := []
    plan := []
    current_step_index := 0
    retrieved_data := none
    adjustment_result := none
    estimation_result := none
    recipe_result := none
    final_messages := []
    monitoring_warnings := []
    response := ""
    tool_calls := []
    tool_outputs := []
    active_node := "" }

-- ==================== PLANNER NODE ====================

/-- The fallback plan: `[{"action": "general_chat", "params": {"query": user_input}}]`. -/
def fallbackPlan (ui : String) : List Json :=
  [Json.obj [("action", Json.str "general_chat"),
             ("params", Json.obj [("query", Json.str ui)])]]

/-- Python `str.strip()` whitespace (ASCII; exotic unicode spaces are out of
    scope for the completions modelled here). -/
def pyWsChar (c : Char) : Bool :=
  c.toNat = 32 || (9 ≤ c.toNat && c.toNat ≤ 13)

/-- Python `str.strip()`. -/
def pyStrip (s : String) : String :=
  String.mk (((s.toList.dropWhile pyWsChar).reverse.dropWhile pyWsChar).reverse)

/-- The backtick character. -/
def btick : Char := Char.ofNat 96

/-- Does the list start with a triple-backtick fence? -/
def isFenceAt (l : List Char) : Bool :=
  match l with
  | a :: b :: c :: _ => a = btick && b = btick && c = btick
  | _ => false

/-- Python `str.split` on the triple-backtick separator (leftmost,
    non-overlapping), fuel-indexed for kernel evaluation. -/
def splitFenceGo : Nat → List Char → List Char → List (List Char)
  | 0, l, acc => [acc.reverse ++ l]
  | Nat.succ _, [], acc => [acc.reverse]
  | Nat.succ fuel, c :: rest, acc =>
    if isFenceAt (c :: rest) then acc.reverse :: splitFenceGo fuel ((c :: rest).drop 3) []
    else splitFenceGo fuel rest (c :: acc)

def splitFence (l : List Char) : List (List Char) :=
  splitFenceGo (l.length + 1) l []

/-- Markdown fence stripping in `node_planner`: if the (already stripped)
    content contains three backticks, take the piece after the first fence
    (`content.split(...)[1]`) and drop a leading `json` tag. -/
def stripFence (c : String) : String :=
  match splitFence c.toList with
  | _ :: p :: _ =>
    if p.take 4 = ['j', 's', 'o', 'n'] then String.mk (p.drop 4) else String.mk p
  | _ => c

/-- The string handed to `json.loads` by the planner: strip, strip a code
    fence, strip again. -/
def plannerContent (c : String) : String := pyStrip (stripFence (pyStrip c))

/-- `node_planner`.  The outcome of `self.chat_model.invoke` is passed in as
    `gwResp` (`Except.error` = the call raised).  The whole generation body
    sits inside `try/except`, so a gateway failure or a parse failure falls
    back to the single `general_chat` step; a JSON value that is not a list
    is wrapped (`plan = [plan]`), not replaced. -/
def node_planner (gwResp : Except String String) (s : ChatRouterState) : ChatRouterState :=
  if s.plan.isEmpty then
    -- RESET TRANSIENT STATE (fresh-plan branch only)
    let s1 := { s with recipe_result := none
                       adjustment_result := none
                       estimation_result := none
                       retrieved_data := none
                       tool_calls := []
                       tool_outputs := [] }
    match gwResp with
    | Except.error _ =>
      { s1 with plan := fallbackPlan s.user_input, current_step_index := 0 }
    | Except.ok content =>
      match Json.parse (plannerContent content) with
      | none =>
        { s1 with plan := fallbackPlan s.user_input, current_step_index := 0 }
      | some (Json.arr xs) => { s1 with plan := xs, current_step_index := 0 }
      | some j => { s1 with plan := [j], current_step_index := 0 }
  else
    -- We are looping back. Increment index.
    { s with current_step_index := s.current_step_index + 1 }

-- ==================== DISPATCH ====================

def knownActions : List String :=
  ["meal_adjustment", "meal_retrieval", "calorie_estimation", "general_chat", "recipe_lookup"]

/-- `decide_route`: dispatch on `plan[idx].get("action")`.  A step that is
    not a dict makes Python raise `AttributeError` at `step.get`, modelled
    by `Except.error`; the guarded `getD` default is never read. -/
def decide_route (s : ChatRouterState) : Except String String :=
  if s.plan.length ≤ s.current_step_index then Except.ok "generate_response"
  else
    match s.plan.getD s.current_step_index Json.null with
    | Json.obj kvs =>
      match jlookup kvs "action" with
      | some (Json.str a) =>
        if a ∈ knownActions then Except.ok a else Except.ok "general_chat"
      | _ => Except.ok "general_chat"
    | _ => Except.error "AttributeError: step has no attribute get"

/-- `decide_next_step_after_action`: with pending `tool_calls` go to the tool
    loop; otherwise read `plan[idx]["action"]` (a raw index, so a missing key
    raises) and send only `calorie_estimation` back to the planner — every
    other action, `general_chat` and `recipe_lookup` included, goes straight
    to `generate_response`. -/
def decide_next_step_after_action (s : ChatRouterState) : Except String String :=
  if s.tool_calls.isEmpty then
    if s.current_step_index < s.plan.length then
      match jindexE (s.plan.getD s.current_step_index Json.null) "action" with
      | Except.error e => Except.error e
      | Except.ok a =>
        Except.ok (if a = Json.str "calorie_estimation" then "planner" else "generate_response")
    else Except.ok "generate_response"
  else Except.ok "execute_tools"

/-- `return_from_tools`: go back to the recorded active node. -/
def return_from_tools (s : ChatRouterState) : String :=
  if s.active_node ≠ "" then s.active_node else "general_chat"

-- ==================== ACTION NODES ====================

/-- Resolution of the query for `node_estimate_calories`: read
    `plan[idx]["action"]` (raw index — may raise) and, for a
    `calorie_estimation` step, `step["params"].get("query", user_input)`.
    A non-string query value flowing onward is not modelled. -/
def estimateQueryE (s : ChatRouterState) : Except String String :=
  if s.current_step_index < s.plan.length then
    match jindexE (s.plan.getD s.current_step_index Json.null) "action" with
    | Except.error e => Except.error e
    | Except.ok a =>
      if a = Json.str "calorie_estimation" then
        match jindexE (s.plan.getD s.current_step_index Json.null) "params" with
        | Except.error e => Except.error e
        | Except.ok (Json.obj kvs) =>
          match jlookup kvs "query" with
          | some (Json.str q) => Except.ok q
          | some _ => Except.error "model limitation: non-string query value"
          | none => Except.ok s.user_input
        | Except.ok _ => Except.error "AttributeError: params has no attribute get"
      else Except.ok s.user_input
  else Except.ok s.user_input

/-- `node_estimate_calories`.  `gwResp` is the outcome of the
    `chat_model.invoke` call, which is NOT wrapped in any `try/except` in
    the source: a gateway failure propagates out of the handler.  On
    success the (stripped) completion is scanned for tool calls; with tool
    calls the handler returns them, otherwise the completion becomes the
    terminal `final_messages` entry. -/
def node_estimate_calories (gwResp : Except String String) (s : ChatRouterState) :
    Except String ChatRouterState :=
  let s1 := { s with active_node := "calorie_estimation"
                     recipe_result := none
                     adjustment_result := none
                     retrieved_data := none }
  match estimateQueryE s1 with
  | Except.error e => Except.error e
  | Except.ok _query =>
    match gwResp with
    | Except.error e => Except.error e
    | Except.ok content =>
      let found := foundTools (pyStrip content)
      if found.isEmpty then
        Except.ok { s1 with tool_calls := [], final_messages := [⟨"ai", content⟩] }
      else
        Except.ok { s1 with tool_calls := found }

/-- Query resolution for `node_general_chat`: no action check here, just
    `step["params"].get("query", user_input)` whenever the plan is non-empty
    and the index is in range. -/
def generalChatQueryE (s : ChatRouterState) : Except String String :=
  if ¬ s.plan.isEmpty ∧ s.current_step_index < s.plan.length then
    match jindexE (s.plan.getD s.current_step_index Json.null) "params" with
    | Except.error e => Except.error e
    | Except.ok (Json.obj kvs) =>
      match jlookup kvs "query" with
      | some (Json.str q) => Except.ok q
      | some _ => Except.error "model limitation: non-string query value"
      | none => Except.ok s.user_input
    | Except.ok _ => Except.error "AttributeError: params has no attribute get"
  else Except.ok s.user_input

/-- `node_general_chat`: same uncaught gateway call and same extraction tail
    as `node_estimate_calories`. -/
def node_general_chat (gwResp : Except String String) (s : ChatRouterState) :
    Except String ChatRouterState :=
  let s1 := { s with active_node := "general_chat" }
  match generalChatQueryE s1 with
  | Except.error e => Except.error e
  | Except.ok _query =>
    match gwResp with
    | Except.error e => Except.error e
    | Except.ok content =>
      let found := foundTools (pyStrip content)
      if found.isEmpty then
        Except.ok { s1 with tool_calls := [], final_messages := [⟨"ai", content⟩] }
      else
        Except.ok { s1 with tool_calls := found }

-- ==================== TOOL LOOP ====================

/-- The synthetic result handed to a duplicate `(tool, query)` request. -/
def syntheticResult (q : String) : String :=
  "System: You have already searched for " ++ sq ++ q ++ sq ++
    ". Do not search for it again. If no results were found, assume the data is missing."

/-- Dedup key of a recorded output: `(out["tool"], out["query"])`. -/
def outKey (o : ToolOut) : String × String := (o.tool, o.query)

/-- `_retrieve_context`, skeleton of its exception handling: the whole body
    sits in `try/except Exception` and any failure is rendered as an error
    string, never re-raised; the MCP formatting logic is abstracted into the
    `body` outcome. -/
def retrieveContext (mcpAvailable : Bool) (body : Except String String) : String :=
  if !mcpAvailable then "Error: MCP Client not available."
  else
    match body with
    | Except.ok r => r
    | Except.error e => "Error executing search: " ++ e

/-- The `for call in tool_calls` loop of `node_execute_tools`.  `retrieve` is
    the (total, see `retrieveContext`) retrieval tool; `executed` is the set
    of `(tool, query)` keys seen so far, seeded from the accumulated
    `tool_outputs`.  Returns the outputs produced in this batch together
    with the list of queries actually sent to the retrieval tool.  A call
    whose `tool`/`query` items are missing raises (`call["tool"]`), and a
    non-string query is not modelled. -/
def execToolsGo (retrieve : String → String) :
    List Json → List (String × String) → Except String (List ToolOut × List String)
  | [], _ => Except.ok ([], [])
  | call :: rest, executed =>
    match jindexE call "tool" with
    | Except.error e => Except.error e
    | Except.ok t =>
      if t = Json.str "search_foods" then
        match jindexE call "query" with
        | Except.error e => Except.error e
        | Except.ok (Json.str q) =>
          if ("search_foods", q) ∈ executed then
            match execToolsGo retrieve rest executed with
            | Except.error e => Except.error e
            | Except.ok (os, inv) =>
              Except.ok (⟨"search_foods", q, syntheticResult q⟩ :: os, inv)
          else
            match execToolsGo retrieve rest (("search_foods", q) :: executed) with
            | Except.error e => Except.error e
            | Except.ok (os, inv) =>
              Except.ok (⟨"search_foods", q, retrieve q⟩ :: os, q :: inv)
        | Except.ok _ => Except.error "model limitation: non-string query value"
      else execToolsGo retrieve rest executed

/-- `node_execute_tools`: run the batch, append the produced outputs to the
    accumulated `tool_outputs`, and clear `tool_calls`. -/
def node_execute_tools (retrieve : String → String) (s : ChatRouterState) :
    Except String ChatRouterState :=
  match execToolsGo retrieve s.tool_calls (s.tool_outputs.map outKey) with
  | Except.error e => Except.error e
  | Except.ok (outs, _inv) =>
    Except.ok { s with tool_outputs := s.tool_outputs ++ outs, tool_calls := [] }

-- ==================== RESPONSE AGGREGATION ====================

/-- Python `f"{v}"` on the scalar JSON values that reach the aggregator. -/
def jsonScalarDisplay : Json → Except String String
  | Json.str t => Except.ok t
  | Json.num r => Except.ok r
  | Json.bool true => Except.ok "True"
  | Json.bool false => Except.ok "False"
  | Json.null => Except.ok "None"
  | _ => Except.error "model limitation: container display"

/-- The `**New Daily Total:**` block of `node_generate_response`. -/
def totalsBlock (totals : Json) : Except String String :=
  match jindexE totals "calories" with
  | Except.error e => Except.error e
  | Except.ok cv =>
    match jsonScalarDisplay cv with
    | Except.error e => Except.error e
    | Except.ok cs =>
      match jindexE totals "protein_g" with
      | Except.error e => Except.error e
      | Except.ok pv =>
        match jsonScalarDisplay pv with
        | Except.error e => Except.error e
        | Except.ok ps =>
          match jindexE totals "carbohydrates_g" with
          | Except.error e => Except.error e
          | Except.ok bv =>
            match jsonScalarDisplay bv with
            | Except.error e => Except.error e
            | Except.ok bs =>
              match jindexE totals "fat_g" with
              | Except.error e => Except.error e
              | Except.ok fv =>
                match jsonScalarDisplay fv with
                | Except.error e => Except.error e
                | Except.ok fs =>
                  match jindexE totals "fiber_g" with
                  | Except.error e => Except.error e
                  | Except.ok iv =>
                    match jsonScalarDisplay iv with
                    | Except.error e => Except.error e
                    | Except.ok is2 =>
                      Except.ok ("**New Daily Total:**\n- Calories: " ++ cs ++
                        " kcal\n- Protein: " ++ ps ++ "g\n- Carbs: " ++ bs ++
                        "g\n- Fat: " ++ fs ++ "g\n- Fiber: " ++ is2 ++ "g\n")

/-- The adjustment section (message, optional daily totals, health alerts).
    An empty dict is falsy in Python, so `some (Json.obj [])` skips the
    block just like `none`. -/
def adjustmentBlock (s : ChatRouterState) : Except String String :=
  match s.adjustment_result with
  | none => Except.ok ""
  | some res =>
    if res = Json.obj [] then Except.ok ""
    else
      match jindexE res "message" with
      | Except.error e => Except.error e
      | Except.ok m =>
        match jsonScalarDisplay m with
        | Except.error e => Except.error e
        | Except.ok ms =>
          match (match jget res "new_daily_total" with
                 | some totals => totalsBlock totals
                 | none => Except.ok "") with
          | Except.error e => Except.error e
          | Except.ok tb =>
            let wb := if s.monitoring_warnings.isEmpty then ""
              else "\n**Health Alerts:**\n" ++
                String.join (s.monitoring_warnings.map (fun w => w ++ "\n"))
            Except.ok (ms ++ "\n\n" ++ tb ++ wb)

/-- `node_generate_response`: concatenate whichever partial results are
    truthy, in the fixed order adjustment / retrieval / recipe / final chat
    message (plus the confirmation invite after a calorie estimation), with
    a generic fallback when nothing was produced. -/
def node_generate_response (s : ChatRouterState) : Except String ChatRouterState :=
  match adjustmentBlock s with
  | Except.error e => Except.error e
  | Except.ok ab =>
    let rb := match s.retrieved_data with
      | some d => if d = "" then "" else "\n**Retrieved Meals:**\n" ++ d
      | none => ""
    let rc := match s.recipe_result with
      | some r => if r = "" then "" else "\n" ++ r
      | none => ""
    let fm := match s.final_messages with
      | [] => ""
      | m :: _ =>
        "\n" ++ m.content ++
          (if s.active_node = "calorie_estimation" then
            "\n\nWould you like to add this to your meal plan? If so, please confirm."
          else "")
    let txt := ab ++ rb ++ rc ++ fm
    Except.ok { s with response := if txt = "" then "I processed your request." else txt }

-- ==================== CLAIM C2 ====================

/-- Claim C2: whenever `plan` is non-empty, `node_planner` takes the re-entry
    branch: `plan` is unchanged, `current_step_index` grows by exactly 1, and
    no other field of the state changes (the result is the input state with
    only that field updated), for every possible gateway outcome. -/
theorem node_planner_reentry (gw : Except String String) (s : ChatRouterState)
    (h : s.plan ≠ []) :
    node_planner gw s = { s with current_step_index := s.current_step_index + 1 } := by
  have he : s.plan.isEmpty = false := by
    cases hp : s.plan with
    | nil => exact absurd hp h
    | cons a l => rfl
  unfold node_planner
  rw [if_neg (by simp [he])]

def reentryState : ChatRouterState :=
  { initialState "what about lunch" with
    plan := fallbackPlan "what about lunch"
    current_step_index := 0
    final_messages := [⟨"ai", "Lunch is oatmeal."⟩] }

theorem node_planner_reentry_witness :
    node_planner (Except.error "down") reentryState =
      { reentryState with current_step_index := 1 } :=
  node_planner_reentry (Except.error "down") reentryState (by
    intro h
    simp [reentryState, initialState, fallbackPlan] at h)

-- ==================== CLAIM C4 ====================

/-- Claim C4: on the fresh-plan branch (`plan` empty) `node_planner` resets
    `recipe_result`, `adjustment_result` and `retrieved_data` to `None` and
    `tool_calls`/`tool_outputs` to `[]`, whatever their prior values and
    whatever the gateway returns; and this reset happens only on that branch:
    with a non-empty `plan` all five fields are left untouched. -/
theorem node_planner_fresh_reset (gw : Except String String) (s : ChatRouterState) :
    (s.plan = [] →
      (node_planner gw s).recipe_result = none ∧
      (node_planner gw s).adjustment_result = none ∧
      (node_planner gw s).retrieved_data = none ∧
      (node_planner gw s).tool_calls = [] ∧
      (node_planner gw s).tool_outputs = []) ∧
    (s.plan ≠ [] →
      (node_planner gw s).recipe_result = s.recipe_result ∧
      (node_planner gw s).adjustment_result = s.adjustment_result ∧
      (node_planner gw s).retrieved_data = s.retrieved_data ∧
      (node_planner gw s).tool_calls = s.tool_calls ∧
      (node_planner gw s).tool_outputs = s.tool_outputs) := by
  constructor
  · intro h
    have he : s.plan.isEmpty = true := by simp [h]
    unfold node_planner
    rw [if_pos he]
    cases gw with
    | error e => simp
    | ok content =>
      cases hp : Json.parse (plannerContent content) with
      | none => simp [hp]
      | some j => cases j <;> simp [hp]
  · intro h
    have he : s.plan.isEmpty = false := by
      cases hp : s.plan with
      | nil => exact absurd hp h
      | cons a l => rfl
    unfold node_planner
    rw [if_neg (by simp [he])]
    simp

def staleState : ChatRouterState :=
  { initialState "plan my week" with
    recipe_result := some "Old recipe text"
    retrieved_data := some "Old meals"
    adjustment_result := some (Json.obj [("message", Json.str "done")])
    tool_outputs := [⟨"search_foods", "tea", "Tea info"⟩] }

theorem node_planner_fresh_reset_witness :
    (node_planner (Except.error "down") staleState).recipe_result = none ∧
    (node_planner (Except.error "down") staleState).tool_outputs = [] :=
  ⟨((node_planner_fresh_reset (Except.error "down") staleState).1 rfl).1,
   ((node_planner_fresh_reset (Except.error "down") staleState).1 rfl).2.2.2.2⟩

-- ==================== CLAIM C1 ====================

/-- The scenario of `tests/verify_planner_loop_fix.py`: the plan is empty but
    `final_messages` already holds work done this turn. -/
def planLossState : ChatRouterState :=
  { initialState "okra onion curry" with
    final_messages := [⟨"ai", "Okra curry is 200 kcal."⟩]
    tool_outputs := [⟨"search_foods", "okra", "Okra info"⟩] }

/-- Claim C1 fails on the code: `node_planner` only checks
    `not state.get(&plan&)` and regenerates a plan (here the fallback step,
    since the gateway call raised) and clears the accumulated tool outputs,
    although `final_messages` is non-empty.  The repo test
    `verify_planner_loop_fix.py` expects `plan` to remain `[]` here. -/
theorem planner_regenerates_despite_results :
    planLossState.plan = [] ∧
    planLossState.final_messages ≠ [] ∧
    (node_planner (Except.error "LLM unavailable") planLossState).plan =
      fallbackPlan "okra onion curry" ∧
    (node_planner (Except.error "LLM unavailable") planLossState).tool_outputs = [] := by
  refine ⟨rfl, by simp [planLossState, initialState], rfl, rfl⟩

-- ==================== CLAIM C5 ====================

def c5resp : String :=
  "\x7b\"action\": \"meal_retrieval\", \"params\": \x7b\"date\": \"2025-12-06\"\x7d\x7d"

/-- Claim C5 as stated is false: a completion that is valid JSON but not a
    list is wrapped into a one-step plan (`plan = [plan]`), not replaced by
    the `general_chat` fallback step. -/
theorem planner_wraps_nonlist_json :
    (node_planner (Except.ok c5resp) (initialState "hi")).plan =
      [Json.obj [("action", Json.str "meal_retrieval"),
                 ("params", Json.obj [("date", Json.str "2025-12-06")])]] ∧
    (node_planner (Except.ok c5resp) (initialState "hi")).plan ≠ fallbackPlan "hi" := by
  constructor
  · rfl
  · decide

/-- Claim C5, amended: a gateway failure or a `json.loads` failure falls back
    to the single `general_chat` step with the user input as query and index
    0 (and `node_planner` is a total function, so nothing is raised); a
    response parsing to a JSON array becomes the plan as-is; a response
    parsing to any non-array JSON value is wrapped into the one-element plan
    `[value]` with index 0. -/
theorem node_planner_parse_fallback (gw : Except String String) (s : ChatRouterState)
    (h : s.plan = []) :
    ((∀ c, gw = Except.ok c → Json.parse (plannerContent c) = none) →
      (node_planner gw s).plan = fallbackPlan s.user_input ∧
      (node_planner gw s).current_step_index = 0) ∧
    (∀ c xs, gw = Except.ok c → Json.parse (plannerContent c) = some (Json.arr xs) →
      (node_planner gw s).plan = xs ∧ (node_planner gw s).current_step_index = 0) ∧
    (∀ c j, gw = Except.ok c → Json.parse (plannerContent c) = some j →
      (∀ xs, j ≠ Json.arr xs) →
      (node_planner gw s).plan = [j] ∧ (node_planner gw s).current_step_index = 0) := by
  have he : s.plan.isEmpty = true := by simp [h]
  refine ⟨?_, ?_, ?_⟩
  · intro hall
    unfold node_planner
    rw [if_pos he]
    cases gw with
    | error e => simp
    | ok content =>
      have hp := hall content rfl
      simp [hp]
  · intro c xs hc hp
    subst hc
    unfold node_planner
    rw [if_pos he]
    simp [hp]
  · intro c j hc hp hne
    subst hc
    unfold node_planner
    rw [if_pos he]
    cases j with
    | arr xs => exact absurd rfl (hne xs)
    | null => simp [hp]
    | bool b => simp [hp]
    | num n => simp [hp]
    | str t => simp [hp]
    | obj kvs => simp [hp]

theorem node_planner_parse_fallback_witness :
    (node_planner (Except.ok "not json") (initialState "hi")).plan = fallbackPlan "hi" ∧
    (node_planner (Except.ok "not json") (initialState "hi")).current_step_index = 0 :=
  (node_planner_parse_fallback (Except.ok "not json") (initialState "hi") rfl).1
    (by intro c hc; cases hc; decide)

-- ==================== CLAIM C6 ====================

/-- A two-step plan whose first step is `general_chat`. -/
def chatThenRetrieveState : ChatRouterState :=
  { initialState "say hi then show my meals" with
    plan := [Json.obj [("action", Json.str "general_chat"),
                       ("params", Json.obj [("query", Json.str "hi")])],
             Json.obj [("action", Json.str "meal_retrieval"),
                       ("params", Json.obj [])]] }

/-- Claim C6 fails on the code: a `general_chat` step that finishes with no
    pending tool calls is routed straight to `generate_response`, not back to
    the planner re-entry path, even though a further step remains in the
    plan — so the remaining `meal_retrieval` step is never dispatched
    (`generate_response` leads only to `extract_feedback` and `END` in the
    graph built by `__init__`). -/
theorem general_chat_skips_remaining_steps :
    chatThenRetrieveState.tool_calls = [] ∧
    chatThenRetrieveState.current_step_index = 0 ∧
    chatThenRetrieveState.plan.length = 2 ∧
    decide_next_step_after_action chatThenRetrieveState = Except.ok "generate_response" ∧
    decide_next_step_after_action chatThenRetrieveState ≠ Except.ok "planner" := by
  refine ⟨rfl, rfl, rfl, rfl, ?_⟩
  intro h
  have h2 : (Except.ok "generate_response" : Except String String) = Except.ok "planner" := h
  injection h2 with h3
  exact absurd h3 (by decide)

/-- Claim C6, amended: with pending tool calls the handler goes to the tool
    loop; with none, only a `calorie_estimation` step returns to the Planner
    re-entry path (advancing `current_step_index`), while a `general_chat`
    step — and any other action — goes straight to `generate_response`, so
    steps after a finished `general_chat` step are not dispatched. -/
theorem decide_next_routing (s : ChatRouterState) :
    (s.tool_calls ≠ [] → decide_next_step_after_action s = Except.ok "execute_tools") ∧
    (s.tool_calls = [] → s.plan.length ≤ s.current_step_index →
      decide_next_step_after_action s = Except.ok "generate_response") ∧
    (∀ kvs, s.tool_calls = [] → s.current_step_index < s.plan.length →
      s.plan.getD s.current_step_index Json.null = Json.obj kvs →
      (jlookup kvs "action" = some (Json.str "calorie_estimation") →
        decide_next_step_after_action s = Except.ok "planner") ∧
      (∀ a, jlookup kvs "action" = some (Json.str a) → a ≠ "calorie_estimation" →
        decide_next_step_after_action s = Except.ok "generate_response")) := by
  refine ⟨?_, ?_, ?_⟩
  · intro h
    have he : s.tool_calls.isEmpty = false := by
      cases hp : s.tool_calls with
      | nil => exact absurd hp h
      | cons a l => rfl
    unfold decide_next_step_after_action
    rw [if_neg (by simp [he])]
  · intro h hle
    have he : s.tool_calls.isEmpty = true := by simp [h]
    unfold decide_next_step_after_action
    rw [if_pos he, if_neg (by omega)]
  · intro kvs h hlt hstep
    have he : s.tool_calls.isEmpty = true := by simp [h]
    constructor
    · intro ha
      unfold decide_next_step_after_action
      rw [if_pos he, if_pos hlt, hstep]
      simp [jindexE, ha]
    · intro a ha hne
      unfold decide_next_step_after_action
      rw [if_pos he, if_pos hlt, hstep]
      simp [jindexE, ha, hne]

def calorieStepState : ChatRouterState :=
  { initialState "nutrition for okra" with
    plan := [Json.obj [("action", Json.str "calorie_estimation"),
                       ("params", Json.obj [("query", Json.str "okra")])]] }

theorem decide_next_routing_witness :
    decide_next_step_after_action calorieStepState = Except.ok "planner" :=
  ((decide_next_routing calorieStepState).2.2
    [("action", Json.str "calorie_estimation"),
     ("params", Json.obj [("query", Json.str "okra")])]
    rfl (by simp [calorieStepState, initialState]) rfl).1 rfl

-- ==================== CLAIM C7 ====================

/-- Claim C7 fails on the code: the `chat_model.invoke` call inside
    `node_estimate_calories` is not wrapped in any `try/except`, so a Model
    Gateway failure propagates out of the Intent Handler unchanged — no
    apologetic text is substituted and no user-visible response is
    produced by the handler. -/
theorem gateway_error_propagates_from_handler :
    node_estimate_calories (Except.error "UpstreamError: gateway down")
        (initialState "nutrition for paneer burji") =
      Except.error "UpstreamError: gateway down" := rfl

/-- Claim C7, amended: Model Gateway failures inside `node_estimate_calories`
    and `node_general_chat` always propagate as exceptions (the handlers
    never return a state); by contrast the Retrieval Tool wrapper
    `_retrieve_context` catches every failure and renders it as an error
    string, and a gateway failure during planning degrades to the
    `general_chat` fallback plan instead of raising. -/
theorem upstream_error_policy (e : String) (s : ChatRouterState) :
    (∃ msg, node_estimate_calories (Except.error e) s = Except.error msg) ∧
    (∃ msg, node_general_chat (Except.error e) s = Except.error msg) ∧
    (∀ b r, retrieveContext b (Except.error r) =
      if b then "Error executing search: " ++ r else "Error: MCP Client not available.") ∧
    (s.plan = [] → (node_planner (Except.error e) s).plan = fallbackPlan s.user_input) := by
  refine ⟨?_, ?_, ?_, ?_⟩
  · unfold node_estimate_calories
    cases hq : estimateQueryE { s with active_node := "calorie_estimation", recipe_result := none, adjustment_result := none, retrieved_data := none } with
    | error e2 => exact ⟨e2, by simp [hq]⟩
    | ok q => exact ⟨e, by simp [hq]⟩
  · unfold node_general_chat
    cases hq : generalChatQueryE { s with active_node := "general_chat" } with
    | error e2 => exact ⟨e2, by simp [hq]⟩
    | ok q => exact ⟨e, by simp [hq]⟩
  · intro b r
    cases b <;> rfl
  · intro h
    have he : s.plan.isEmpty = true := by simp [h]
    unfold node_planner
    rw [if_pos he]

theorem upstream_error_policy_witness :
    (∃ msg, node_estimate_calories (Except.error "boom") (initialState "hi") =
      Except.error msg) ∧
    (node_planner (Except.error "boom") (initialState "hi")).plan = fallbackPlan "hi" :=
  ⟨(upstream_error_policy "boom" (initialState "hi")).1,
   (upstream_error_policy "boom" (initialState "hi")).2.2.2 rfl⟩

-- ==================== CLAIM C10 ====================

/-- Modelled from the claim wording: the route `decide_route` is claimed to
    compute — `generate_response` past the end of the plan, the action name
    for the five known actions, `general_chat` for anything else (unknown
    action string, non-string action value, or missing action key). -/
def claimRoute (s : ChatRouterState) : String :=
  if s.plan.length ≤ s.current_step_index then "generate_response"
  else
    match jget (s.plan.getD s.current_step_index Json.null) "action" with
    | some (Json.str a) => if a ∈ knownActions then a else "general_chat"
    | _ => "general_chat"

/-- Claim C10: on every state whose plan steps are dicts (the declared type
    `List[Dict]` of the `plan` field), `decide_route` is total — it never
    raises, and it returns exactly the dispatch value described by the
    claim (`claimRoute`). -/
theorem decide_route_total (s : ChatRouterState)
    (h : ∀ st ∈ s.plan, st.isObj = true) :
    decide_route s = Except.ok (claimRoute s) := by
  unfold decide_route claimRoute
  by_cases hle : s.plan.length ≤ s.current_step_index
  · rw [if_pos hle, if_pos hle]
  · rw [if_neg hle, if_neg hle]
    have hlt : s.current_step_index < s.plan.length := by omega
    have hmem : s.plan.getD s.current_step_index Json.null ∈ s.plan := by
      rw [List.getD_eq_getElem s.plan Json.null hlt]
      exact List.getElem_mem hlt
    have hobj := h _ hmem
    cases hst : s.plan.getD s.current_step_index Json.null with
    | obj kvs =>
      dsimp only
      simp only [jget]
      cases jlookup kvs "action" with
      | none => rfl
      | some v =>
        cases v with
        | str a =>
          by_cases hka : a ∈ knownActions
          · simp [hka]
          · simp [hka]
        | null => rfl
        | bool b => rfl
        | num n => rfl
        | arr xs => rfl
        | obj kvs2 => rfl
    | null => rw [hst] at hobj; simp [Json.isObj] at hobj
    | bool b => rw [hst] at hobj; simp [Json.isObj] at hobj
    | num n => rw [hst] at hobj; simp [Json.isObj] at hobj
    | str t => rw [hst] at hobj; simp [Json.isObj] at hobj
    | arr xs => rw [hst] at hobj; simp [Json.isObj] at hobj

def unknownActionState : ChatRouterState :=
  { initialState "dance" with
    plan := [Json.obj [("action", Json.str "dance")]] }

theorem decide_route_total_witness :
    decide_route unknownActionState = Except.ok (claimRoute unknownActionState) ∧
    claimRoute unknownActionState = "general_chat" :=
  ⟨decide_route_total unknownActionState
    (by
      intro st hst
      simp only [unknownActionState, initialState] at hst
      simp only [List.mem_singleton] at hst
      rw [hst]
      rfl),
   rfl⟩

-- ==================== CLAIM C9 ====================

/-- On a state whose adjustment, retrieval and recipe results are all unset
    and whose active node is the calorie estimator, the aggregator can only
    render the final chat message (plus the confirmation invite) or the
    generic fallback. -/
theorem generate_response_chat_only (s2 : ChatRouterState)
    (h1 : s2.adjustment_result = none) (h2 : s2.retrieved_data = none)
    (h3 : s2.recipe_result = none) (h4 : s2.active_node = "calorie_estimation") :
    ∀ s3, node_generate_response s2 = Except.ok s3 →
      s3.response = (match s2.final_messages with
        | [] => "I processed your request."
        | m :: _ => "\n" ++ m.content ++
            "\n\nWould you like to add this to your meal plan? If so, please confirm.") := by
  intro s3 hr
  unfold node_generate_response adjustmentBlock at hr
  rw [h1, h2, h3, h4] at hr
  cases hf : s2.final_messages with
  | nil =>
    rw [hf] at hr
    injection hr with hr2
    subst hr2
    dsimp only
    decide
  | cons m rest =>
    rw [hf] at hr
    injection hr with hr2
    subst hr2
    dsimp only
    rw [if_neg (by
      intro hE
      have hL := congrArg String.length hE
      have e1 : ("\n").length = 1 := rfl
      simp only [String.length_append, e1] at hL
      omega)]
    rfl

/-- Claim C9: whatever the prior state, whenever `node_estimate_calories`
    returns a state (rather than raising), that state has `recipe_result`,
    `adjustment_result` and `retrieved_data` cleared to `None` — results of
    earlier `meal_retrieval`, `recipe_lookup` or `meal_adjustment` steps of
    the same plan are erased — and consequently `node_generate_response` on
    that state can only render the estimator chat message (or the generic
    fallback), never those earlier results. -/
theorem estimate_calories_clears_results (gw : Except String String)
    (s s2 : ChatRouterState) (h : node_estimate_calories gw s = Except.ok s2) :
    s2.recipe_result = none ∧ s2.adjustment_result = none ∧ s2.retrieved_data = none ∧
    s2.active_node = "calorie_estimation" ∧
    (∀ s3, node_generate_response s2 = Except.ok s3 →
      s3.response = (match s2.final_messages with
        | [] => "I processed your request."
        | m :: _ => "\n" ++ m.content ++
            "\n\nWould you like to add this to your meal plan? If so, please confirm.")) := by
  unfold node_estimate_calories at h
  cases hq : estimateQueryE { s with active_node := "calorie_estimation", recipe_result := none, adjustment_result := none, retrieved_data := none } with
  | error e2 => simp [hq] at h
  | ok q =>
    cases gw with
    | error e2 => simp [hq] at h
    | ok content =>
      simp only [hq] at h
      split at h
      · injection h with h2
        subst h2
        exact ⟨rfl, rfl, rfl, rfl, generate_response_chat_only _ rfl rfl rfl rfl⟩
      · injection h with h2
        subst h2
        exact ⟨rfl, rfl, rfl, rfl, generate_response_chat_only _ rfl rfl rfl rfl⟩

/-- A state carrying results from earlier plan steps of the same turn. -/
def preEstimateState : ChatRouterState :=
  { initialState "nutrition for okra curry" with
    recipe_result := some "Recipe: okra curry with onions"
    retrieved_data := some "Breakfast: oatmeal"
    adjustment_result := some (Json.obj [("message", Json.str "Updated breakfast")]) }

def postEstimateState : ChatRouterState :=
  { preEstimateState with
    active_node := "calorie_estimation"
    recipe_result := none
    adjustment_result := none
    retrieved_data := none
    tool_calls := []
    final_messages := [⟨"ai", "Roughly 180 kcal."⟩] }

theorem estimate_calories_clears_results_witness :
    postEstimateState.recipe_result = none ∧
    postEstimateState.adjustment_result = none ∧
    postEstimateState.retrieved_data = none :=
  ⟨(estimate_calories_clears_results (Except.ok "Roughly 180 kcal.")
      preEstimateState postEstimateState rfl).1,
   (estimate_calories_clears_results (Except.ok "Roughly 180 kcal.")
      preEstimateState postEstimateState rfl).2.1,
   (estimate_calories_clears_results (Except.ok "Roughly 180 kcal.")
      preEstimateState postEstimateState rfl).2.2.1⟩

-- ==================== CLAIM C3 ====================

/-- Invariants of the tool-loop batch: the queries actually sent to the
    retrieval tool are pairwise distinct, none of them was already recorded
    in `executed`, each of them leaves its key among the produced outputs,
    every produced output is a `search_foods` record, and every output whose
    key was already recorded carries the synthetic result. -/
theorem execToolsGo_props (retrieve : String → String) :
    ∀ (calls : List Json) (executed : List (String × String))
      (outs : List ToolOut) (inv : List String),
      execToolsGo retrieve calls executed = Except.ok (outs, inv) →
      inv.Nodup ∧
      (∀ q ∈ inv, ("search_foods", q) ∉ executed) ∧
      (∀ q ∈ inv, ("search_foods", q) ∈ outs.map outKey) ∧
      (∀ o ∈ outs, o.tool = "search_foods") ∧
      (∀ o ∈ outs, outKey o ∈ executed → o.result = syntheticResult o.query) := by
  intro calls
  induction calls with
  | nil =>
    intro executed outs inv h
    simp only [execToolsGo] at h
    injection h with h2
    injection h2 with ho hi
    subst ho; subst hi
    refine ⟨List.nodup_nil, ?_, ?_, ?_, ?_⟩ <;> simp
  | cons call rest ih =>
    intro executed outs inv h
    unfold execToolsGo at h
    cases ht : jindexE call "tool" with
    | error e => rw [ht] at h; exact absurd h (by simp)
    | ok t =>
      rw [ht] at h
      dsimp only at h
      by_cases hsf : t = Json.str "search_foods"
      · rw [if_pos hsf] at h
        cases hqv : jindexE call "query" with
        | error e => rw [hqv] at h; exact absurd h (by simp)
        | ok qv =>
          rw [hqv] at h
          cases qv with
          | str q =>
            dsimp only at h
            by_cases hdup : ("search_foods", q) ∈ executed
            · rw [if_pos hdup] at h
              cases hrec : execToolsGo retrieve rest executed with
              | error e => rw [hrec] at h; exact absurd h (by simp)
              | ok p =>
                obtain ⟨os, inv0⟩ := p
                rw [hrec] at h
                dsimp only at h
                injection h with h2
                injection h2 with ho hi
                subst ho; subst hi
                obtain ⟨i1, i2, i3, i4, i5⟩ := ih executed os inv0 hrec
                refine ⟨i1, i2, ?_, ?_, ?_⟩
                · intro q2 hq2
                  exact List.mem_cons_of_mem _ (i3 q2 hq2)
                · intro o ho
                  rcases List.mem_cons.mp ho with h0 | h0
                  · subst h0; rfl
                  · exact i4 o h0
                · intro o ho hk
                  rcases List.mem_cons.mp ho with h0 | h0
                  · subst h0; rfl
                  · exact i5 o h0 hk
            · rw [if_neg hdup] at h
              cases hrec : execToolsGo retrieve rest (("search_foods", q) :: executed) with
              | error e => rw [hrec] at h; exact absurd h (by simp)
              | ok p =>
                obtain ⟨os, inv0⟩ := p
                rw [hrec] at h
                dsimp only at h
                injection h with h2
                injection h2 with ho hi
                subst ho; subst hi
                obtain ⟨i1, i2, i3, i4, i5⟩ := ih _ os inv0 hrec
                refine ⟨?_, ?_, ?_, ?_, ?_⟩
                · refine List.nodup_cons.mpr ⟨?_, i1⟩
                  intro hmem
                  exact (i2 q hmem) (List.mem_cons_self _ _)
                · intro q2 hq2
                  rcases List.mem_cons.mp hq2 with h0 | h0
                  · subst h0; exact hdup
                  · intro hmem
                    exact (i2 q2 h0) (List.mem_cons_of_mem _ hmem)
                · intro q2 hq2
                  rcases List.mem_cons.mp hq2 with h0 | h0
                  · subst h0
                    exact List.mem_cons_self _ _
                  · exact List.mem_cons_of_mem _ (i3 q2 h0)
                · intro o ho
                  rcases List.mem_cons.mp ho with h0 | h0
                  · subst h0; rfl
                  · exact i4 o h0
                · intro o ho hk
                  rcases List.mem_cons.mp ho with h0 | h0
                  · rw [h0] at hk
                    exact absurd hk hdup
                  · exact i5 o h0 (List.mem_cons_of_mem _ hk)
          | null => exact absurd h (by simp)
          | bool b => exact absurd h (by simp)
          | num n => exact absurd h (by simp)
          | arr xs => exact absurd h (by simp)
          | obj kvs => exact absurd h (by simp)
      · rw [if_neg hsf] at h
        exact ih executed outs inv h

/-- Claim C3: the Tool Loop executes the Retrieval Tool at most once per
    distinct `(tool, query)` pair across the turn — the queries really
    looked up in a batch (`inv`) are pairwise distinct, never include a key
    already present in the accumulated `tool_outputs`, and each lookup
    leaves its key in the new `tool_outputs` (so later batches will also
    skip it); a call whose key was already recorded gets the synthetic
    already-searched result; and the batch outputs are appended to
    `tool_outputs` (never replacing it) while `tool_calls` is cleared. -/
theorem execute_tools_dedup (retrieve : String → String) (s : ChatRouterState)
    (outs : List ToolOut) (inv : List String)
    (h : execToolsGo retrieve s.tool_calls (s.tool_outputs.map outKey) =
      Except.ok (outs, inv)) :
    node_execute_tools retrieve s =
      Except.ok { s with tool_outputs := s.tool_outputs ++ outs, tool_calls := [] } ∧
    inv.Nodup ∧
    (∀ q ∈ inv, ("search_foods", q) ∉ s.tool_outputs.map outKey) ∧
    (∀ q ∈ inv, ("search_foods", q) ∈
      ({ s with tool_outputs := s.tool_outputs ++ outs,
                tool_calls := [] } : ChatRouterState).tool_outputs.map outKey) ∧
    (∀ o ∈ outs, outKey o ∈ s.tool_outputs.map outKey →
      o.result = syntheticResult o.query) := by
  obtain ⟨i1, i2, i3, i4, i5⟩ :=
    execToolsGo_props retrieve s.tool_calls (s.tool_outputs.map outKey) outs inv h
  refine ⟨?_, i1, i2, ?_, i5⟩
  · unfold node_execute_tools
    rw [h]
  · intro q hq
    simp only [List.map_append, List.mem_append]
    exact Or.inr (i3 q hq)

/-- One duplicate within the batch and one key already searched earlier. -/
def dedupDemoState : ChatRouterState :=
  { initialState "nutrition for okra rice bowl" with
    tool_calls := [Json.obj [("tool", Json.str "search_foods"), ("query", Json.str "okra")],
                   Json.obj [("tool", Json.str "search_foods"), ("query", Json.str "okra")],
                   Json.obj [("tool", Json.str "search_foods"), ("query", Json.str "rice")]]
    tool_outputs := [⟨"search_foods", "rice", "Rice: 130 kcal"⟩] }

def demoRetrieve (q : String) : String := "data for " ++ q

def dedupDemoOuts : List ToolOut :=
  [⟨"search_foods", "okra", demoRetrieve "okra"⟩,
   ⟨"search_foods", "okra", syntheticResult "okra"⟩,
   ⟨"search_foods", "rice", syntheticResult "rice"⟩]

theorem execute_tools_dedup_witness :
    node_execute_tools demoRetrieve dedupDemoState =
      Except.ok { dedupDemoState with
        tool_outputs := dedupDemoState.tool_outputs ++ dedupDemoOuts
        tool_calls := [] } ∧
    (["okra"] : List String).Nodup :=
  ⟨(execute_tools_dedup demoRetrieve dedupDemoState dedupDemoOuts ["okra"] rfl).1,
   (execute_tools_dedup demoRetrieve dedupDemoState dedupDemoOuts ["okra"] rfl).2.1⟩

-- ==================== CLAIM C8 ====================

theorem dropWhile_head_false (p : Char → Bool) :
    ∀ (l : List Char) (b : Char) (r : List Char), l.dropWhile p = b :: r → p b = false := by
  intro l
  induction l with
  | nil => intro b r h; simp [List.dropWhile] at h
  | cons c cs ih =>
    intro b r h
    rw [List.dropWhile_cons] at h
    by_cases hp : p c = true
    · rw [if_pos hp] at h
      exact ih b r h
    · rw [if_neg hp] at h
      injection h with h1 h2
      subst h1
      cases hpc : p c with
      | false => rfl
      | true => exact absurd hpc hp

/-- Characters strictly before the next opening brace never start a match:
    the scanner may skip them. -/
theorem scan2_none_skip (l2 : List Char) :
    ∀ (p : List Char), (∀ c ∈ p, ¬ c = lbrace) → scan2 (p ++ l2) none = scan2 l2 none := by
  intro p
  induction p with
  | nil => intro hp; rfl
  | cons c cs ih =>
    intro hp
    have hc : ¬ c = lbrace := hp c (List.mem_cons_self _ _)
    show scan2 (c :: (cs ++ l2)) none = scan2 l2 none
    simp only [scan2]
    rw [if_neg hc]
    exact ih (fun d hd => hp d (List.mem_cons_of_mem _ hd))

/-- Closed form of the scanner inside a potential match: it emits a block as
    soon as the next brace is closing, restarts on an inner opening brace,
    and emits nothing if no brace follows. -/
theorem scan2_some_eq :
    ∀ (s acc : List Char),
      scan2 s (some acc) =
        (match s.dropWhile braceFree with
        | [] => []
        | b :: r =>
          if b = rbrace then
            (lbrace :: (acc.reverse ++ s.takeWhile braceFree) ++ [rbrace]) :: scan2 r none
          else scan2 r (some [])) := by
  intro s
  induction s with
  | nil => intro acc; rfl
  | cons c cs ih =>
    intro acc
    by_cases hr : c = rbrace
    · subst hr
      have hbf : braceFree rbrace = false := by decide
      simp [scan2, hbf, List.dropWhile_cons, List.takeWhile_cons]
    · by_cases hl : c = lbrace
      · subst hl
        have hbf : braceFree lbrace = false := by decide
        have hne : ¬ lbrace = rbrace := by decide
        simp [scan2, hbf, hne, List.dropWhile_cons]
      · have hbf : braceFree c = true := by simp [braceFree, hl, hr]
        rw [show scan2 (c :: cs) (some acc) = scan2 cs (some (c :: acc)) from by
          simp [scan2, hr, hl]]
        rw [ih (c :: acc)]
        simp only [List.dropWhile_cons, List.takeWhile_cons, hbf, if_true]
        cases hd : cs.dropWhile braceFree with
        | nil => rfl
        | cons b r =>
          by_cases hbr : b = rbrace
          · simp [hbr, List.reverse_cons, List.append_assoc]
          · simp [hbr]

theorem matchAt_cons (c : Char) (s : List Char) (i : Nat) :
    matchAt (c :: s) (i + 1) = matchAt s i := rfl

theorem filterMap_range_succ (f : Nat → Option (List Char)) (n : Nat) :
    (List.range (n + 1)).filterMap f =
      (match f 0 with | some b => [b] | none => []) ++
        (List.range n).filterMap (fun i => f (i + 1)) := by
  rw [List.range_succ_eq_map, List.filterMap_cons, List.filterMap_map]
  have hfs : f ∘ Nat.succ = fun i => f (i + 1) := rfl
  rw [hfs]
  cases f 0 <;> simp

theorem takeWhile_braceFree_no_open (cs : List Char) :
    ∀ d ∈ cs.takeWhile braceFree, ¬ d = lbrace := by
  intro d hd2 he
  have hbf := List.mem_takeWhile_imp hd2
  subst he
  exact absurd hbf (by decide)

/-- The finditer scan returns exactly the non-nested brace-delimited
    substrings, in their order of appearance: position by position, a block
    starts wherever `matchAt` succeeds. -/
theorem scan2_eq_spec : ∀ s : List Char,
    scan2 s none = (List.range s.length).filterMap (matchAt s) := by
  intro s
  induction s with
  | nil => rfl
  | cons c cs ih =>
    rw [List.length_cons, filterMap_range_succ (matchAt (c :: cs)) cs.length]
    have hsh : (fun i => matchAt (c :: cs) (i + 1)) = matchAt cs :=
      funext (fun i => matchAt_cons c cs i)
    rw [hsh, ← ih]
    by_cases hl : c = lbrace
    · subst hl
      have h0 : matchAt (lbrace :: cs) 0 =
          (match cs.dropWhile braceFree with
          | b :: _ =>
            if b = rbrace then some (lbrace :: cs.takeWhile braceFree ++ [rbrace]) else none
          | [] => none) := by
        unfold matchAt
        simp only [List.drop]
        simp only [if_true]
      rw [h0]
      rw [show scan2 (lbrace :: cs) none = scan2 cs (some []) from by simp [scan2]]
      rw [scan2_some_eq cs []]
      cases hd : cs.dropWhile braceFree with
      | nil =>
        have hcs : cs.takeWhile braceFree ++ ([] : List Char) = cs := by
          rw [← hd]; exact List.takeWhile_append_dropWhile braceFree cs
        have hskip := scan2_none_skip [] (cs.takeWhile braceFree)
          (takeWhile_braceFree_no_open cs)
        rw [hcs] at hskip
        simp only [List.nil_append]
        rw [hskip]
        rfl
      | cons b r =>
        have hcs : cs.takeWhile braceFree ++ (b :: r) = cs := by
          rw [← hd]; exact List.takeWhile_append_dropWhile braceFree cs
        by_cases hbr : b = rbrace
        · subst hbr
          dsimp only
          rw [if_pos rfl, if_pos rfl]
          have hskip := scan2_none_skip (rbrace :: r) (cs.takeWhile braceFree)
            (takeWhile_braceFree_no_open cs)
          rw [hcs] at hskip
          have hstep : scan2 (rbrace :: r) none = scan2 r none := by
            simp [scan2, show ¬ rbrace = lbrace from by decide]
          rw [hskip, hstep]
          simp
        · dsimp only
          rw [if_neg hbr, if_neg hbr]
          have hbl : b = lbrace := by
            have hf := dropWhile_head_false braceFree cs b r hd
            unfold braceFree at hf
            have hor : (decide (b = lbrace) || decide (b = rbrace)) = true := by
              cases hxy : (decide (b = lbrace) || decide (b = rbrace)) with
              | true => rfl
              | false => rw [hxy] at hf; simp at hf
            have hor2 : b = lbrace ∨ b = rbrace := by simpa using hor
            rcases hor2 with h1 | h1
            · exact h1
            · exact absurd h1 hbr
          subst hbl
          have hskip := scan2_none_skip (lbrace :: r) (cs.takeWhile braceFree)
            (takeWhile_braceFree_no_open cs)
          rw [hcs] at hskip
          have hstep : scan2 (lbrace :: r) none = scan2 r (some []) := by
            simp [scan2]
          simp only [List.nil_append]
          rw [hskip, hstep]
    · have h0 : matchAt (c :: cs) 0 = none := by
        unfold matchAt
        simp only [List.drop]
        rw [if_neg hl]
      rw [h0]
      rw [show scan2 (c :: cs) none = scan2 cs none from by simp [scan2, hl]]
      simp

theorem foundToolsGo_eq (cs : List String) :
    foundToolsGo cs = cs.filterMap parseSearchCall := by
  induction cs with
  | nil => rfl
  | cons c cs ih =>
    rw [List.filterMap_cons]
    unfold foundToolsGo
    cases hp : Json.parse c with
    | none =>
      simp only [hp]
      have hpc : parseSearchCall c = none := by simp [parseSearchCall, hp]
      simp only [hpc]
      exact ih
    | some j =>
      simp only [hp]
      by_cases htool : jget j "tool" = some (Json.str "search_foods")
      · have hpc : parseSearchCall c = some j := by simp [parseSearchCall, hp, htool]
        simp only [hpc, if_pos htool]
        rw [ih]
      · have hpc : parseSearchCall c = none := by simp [parseSearchCall, hp, htool]
        simp only [hpc, if_neg htool]
        exact ih

/-- Claim C8: the extraction shared by `node_estimate_calories` and
    `node_general_chat` (a) scans the completion for exactly the non-nested
    brace-delimited substrings, in order of appearance (position-by-position
    characterisation of the finditer model), (b) keeps exactly those
    candidates that parse as JSON objects whose `tool` field equals
    `search_foods` — malformed candidates and other tool names are dropped
    silently, several calls may come from one completion — and (c) every
    extracted call indeed carries `tool = "search_foods"`.  The extraction
    is a total function: every parse failure is absorbed (the `try/except`
    pair in the source), so it never raises. -/
theorem tool_call_extraction (content : String) :
    scan2 content.toList none =
      (List.range content.toList.length).filterMap (matchAt content.toList) ∧
    foundTools content = (candidates content).filterMap parseSearchCall ∧
    ∀ j ∈ foundTools content, jget j "tool" = some (Json.str "search_foods") := by
  refine ⟨scan2_eq_spec _, foundToolsGo_eq _, ?_⟩
  intro j hj
  rw [foundTools, foundToolsGo_eq] at hj
  obtain ⟨c, hc, hpc⟩ := List.mem_filterMap.mp hj
  unfold parseSearchCall at hpc
  cases hp : Json.parse c with
  | none => simp [hp] at hpc
  | some j2 =>
    simp only [hp] at hpc
    by_cases ht : jget j2 "tool" = some (Json.str "search_foods")
    · rw [if_pos ht] at hpc
      injection hpc with h2
      subst h2
      exact ht
    · rw [if_neg ht] at hpc
      exact absurd hpc (by simp)

/-- A completion mixing prose with two tool calls, one malformed candidate
    and one foreign tool name. -/
def extractionDemo : String :=
  "Looking up \x7b\"tool\": \"search_foods\", \"query\": \"paneer\"\x7d then \x7bbad\x7d and \x7b\"tool\": \"other\", \"query\": \"x\"\x7d and \x7b\"tool\": \"search_foods\", \"query\": \"onion\"\x7d"

theorem tool_call_extraction_witness :
    foundTools extractionDemo = (candidates extractionDemo).filterMap parseSearchCall ∧
    foundTools extractionDemo =
      [Json.obj [("tool", Json.str "search_foods"), ("query", Json.str "paneer")],
       Json.obj [("tool", Json.str "search_foods"), ("query", Json.str "onion")]] :=
  ⟨(tool_call_extraction extractionDemo).2.1, rfl⟩

end MealMind
